import Mathlib

/-!
Verification of the notes application's optimistic-concurrency mechanism.

The development embeds two layers:

* the Note Store (backend), modelled from the specification since the
  backend sources (backend/crud.py, backend/routers/notes.py) are not part
  of the shipped tree — only the frontend and the README are;
* the Client Session (frontend), translated from
  frontend/src/pages/Dashboard.jsx (Dashboard and EditNote components),
  frontend/src/utils/api.js (axios interceptors and getErrorMessage) and
  frontend/src/context/AuthContext.jsx (token storage).
-/

namespace NotesApp

/-- Modelled from the spec: a persisted note document (spec §3 Data Model).
Identity and owner are opaque references, modelled as naturals; timestamps
are opaque instants, modelled as naturals. -/
structure Note where
  id : Nat
  title : String
  content : String
  tags : List String
  is_favorite : Bool
  owner : Nat
  created_at : Nat
  updated_at : Nat
  version : Nat
deriving DecidableEq, Repr

/-- Modelled from the spec: the error taxonomy of the store (spec §7);
NotFoundError covers both a missing note and a non-owned note. -/
inductive StoreError where
  | NotFoundError
  | ConflictError
deriving DecidableEq, Repr

/-- Modelled from the spec: `fieldChanges` of the update contract contains
any subset of title, content, tags and favorite (spec §4.1). -/
structure FieldChanges where
  title : Option String
  content : Option String
  tags : Option (List String)
  is_favorite : Option Bool
deriving DecidableEq, Repr

/-- Modelled from the spec: resolving a note identifier in the persisted
collection (the find half of find-then-conditional-replace, spec §4.1). -/
def findNote (store : List Note) (noteId : Nat) : Option Note :=
  store.find? (fun m => m.id == noteId)

/-- Modelled from the spec: apply `fieldChanges`, stamp the new version and
the last-modified timestamp (spec §4.1, success branch). -/
def applyChanges (n : Note) (fc : FieldChanges) (newVersion now : Nat) : Note :=
  { n with
      title := fc.title.getD n.title
      content := fc.content.getD n.content
      tags := fc.tags.getD n.tags
      is_favorite := fc.is_favorite.getD n.is_favorite
      version := newVersion
      updated_at := now }

/-- Modelled from the spec: the optimistic-concurrency update contract
(spec §4.1). The checks run in the spec's order: missing note, then
ownership (reported as NotFoundError to hide existence), then version.
On failure the store is returned unchanged; on success the matching
document is replaced and the version set to `expectedVersion + 1`. -/
def update (store : List Note) (noteId owner expectedVersion : Nat)
    (fc : FieldChanges) (now : Nat) : Except StoreError Note × List Note :=
  match findNote store noteId with
  | none => (Except.error StoreError.NotFoundError, store)
  | some n =>
    if n.owner ≠ owner then (Except.error StoreError.NotFoundError, store)
    else if n.version ≠ expectedVersion then (Except.error StoreError.ConflictError, store)
    else
      let n' := applyChanges n fc (expectedVersion + 1) now
      (Except.ok n', store.map (fun m => if m.id == noteId then n' else m))

/-- Modelled from the spec: creation by an authenticated owner, with
`version` initialized to 1 (spec §3 Lifecycle, §6 POST /notes/). -/
def create (store : List Note) (newId owner : Nat) (title content : String)
    (tags : List String) (fav : Bool) (now : Nat) : Note × List Note :=
  let n : Note :=
    { id := newId, title := title, content := content, tags := tags,
      is_favorite := fav, owner := owner, created_at := now,
      updated_at := now, version := 1 }
  (n, store ++ [n])

/-- Modelled from the spec: `get(noteId, ownerIdentity)` with the same
ownership-hides-existence rule as update (spec §4.2). -/
def get (store : List Note) (noteId caller : Nat) : Except StoreError Note :=
  match findNote store noteId with
  | none => Except.error StoreError.NotFoundError
  | some n =>
    if n.owner ≠ caller then Except.error StoreError.NotFoundError
    else Except.ok n

/-- Modelled from the spec: hard delete by the owner; afterwards the
identifier must not resolve to any note (spec §3 Lifecycle, §6 DELETE). -/
def delete (store : List Note) (noteId caller : Nat) :
    Except StoreError Unit × List Note :=
  match findNote store noteId with
  | none => (Except.error StoreError.NotFoundError, store)
  | some n =>
    if n.owner ≠ caller then (Except.error StoreError.NotFoundError, store)
    else (Except.ok (), store.filter (fun m => m.id != noteId))

/-- Lower-casing of a character list (structural form of toLowerCase). -/
def lowerChars (cs : List Char) : List Char :=
  cs.map Char.toLower

/-- Case-insensitive substring test on strings, used by the search match
(spec §4.2 "case-insensitive substring or token match"). -/
def strContains (hay needle : String) : Bool :=
  (lowerChars hay.data).tails.any (fun t => (lowerChars needle.data).isPrefixOf t)

/-- Modelled from the spec: a note matches the search text when it occurs
case-insensitively in the title, the content or any tag (spec §4.2). -/
def noteMatches (q : String) (n : Note) : Bool :=
  strContains n.title q || strContains n.content q ||
    n.tags.any (fun t => strContains t q)

/-- Modelled from the spec: `list(ownerIdentity, searchText?)` returns only
the caller's notes, filtered by the search text when present (spec §4.2). -/
def listNotes (store : List Note) (owner : Nat) (searchText : Option String) :
    List Note :=
  (store.filter (fun n => n.owner == owner)).filter
    (fun n =>
      match searchText with
      | none => true
      | some q => noteMatches q n)

/-- Modelled from the spec: one store operation of the mechanism's surface
(spec §4.1, §4.2, §6) -- create, update or delete. -/
inductive StoreOp where
  | createOp (newId owner : Nat) (title content : String)
      (tags : List String) (fav : Bool) (now : Nat)
  | updateOp (noteId owner expectedVersion : Nat) (fc : FieldChanges) (now : Nat)
  | deleteOp (noteId caller : Nat)

/-- Modelled from the spec: the store-state transition of one operation. -/
def applyOp (store : List Note) : StoreOp → List Note
  | StoreOp.createOp newId owner title content tags fav now =>
      (create store newId owner title content tags fav now).2
  | StoreOp.updateOp noteId owner ev fc now => (update store noteId owner ev fc now).2
  | StoreOp.deleteOp noteId caller => (delete store noteId caller).2

/-! Client side, translated from the frontend sources. -/

/-- The JSON body of a `PUT /notes/{id}` request. Fields absent from the
JSON object are `none`; `version` is `Option` so that its mandatory
presence is a provable property rather than a typing artifact. -/
structure UpdateBody where
  title : Option String
  content : Option String
  tags : Option (List String)
  is_favorite : Option Bool
  version : Option Nat
deriving DecidableEq, Repr

/-- Modelled from the spec: the update endpoint reads the body's subset of
changed fields (spec §6, `PUT /notes/{id}` body). -/
def toFieldChanges (b : UpdateBody) : FieldChanges :=
  { title := b.title, content := b.content, tags := b.tags,
    is_favorite := b.is_favorite }

/-- Outcome of one remote call as the frontend observes it: either the
updated note, or an axios error carrying an optional HTTP status
(`error.response?.status`), optional `data.detail` and `data.message`
fields, and the optional `error.message` string. -/
inductive ApiResult where
  | success (note : Note)
  | failure (status : Option Nat) (detail msgData errMessage : Option String)
deriving DecidableEq, Repr

/-- JavaScript string truthiness for an optional field: present and
non-empty. From the `if (...)` chains of api.js getErrorMessage. -/
def orNonempty (s : Option String) (fallback : String) : String :=
  match s with
  | some t => if t = "" then fallback else t
  | none => fallback

/-- The fallback message of api.js getErrorMessage. -/
def defaultErrorMessage : String :=
  "An unexpected error occurred. Please try again."

/-- api.js getErrorMessage: prefer `response.data.detail`, then
`response.data.message`, then `error.message`, else a fixed fallback. -/
def getErrorMessage (detail msgData errMessage : Option String) : String :=
  orNonempty detail (orNonempty msgData (orNonempty errMessage defaultErrorMessage))

/-- The EditNote form state (Dashboard.jsx, EditNote component):
`formData` holds title, content, the comma-separated tags string, the
favorite flag and the last-observed version. -/
structure FormData where
  title : String
  content : String
  tags : String
  is_favorite : Bool
  version : Nat
deriving DecidableEq, Repr

/-- Whitespace trimming on a character list (structural form of the
trim both components call on form fields). -/
def trimChars (cs : List Char) : List Char :=
  ((cs.dropWhile Char.isWhitespace).reverse.dropWhile Char.isWhitespace).reverse

/-- Trimming of a form field string, as JavaScript trim does. -/
def jsTrim (s : String) : String :=
  String.mk (trimChars s.data)

/-- Splitting a character list at commas, as the split on a comma in
EditNote.handleSubmit does (empty pieces are kept, to be dropped by the
later filter). -/
def splitOnComma : List Char → List (List Char)
  | [] => [[]]
  | c :: rest =>
    match splitOnComma rest with
    | [] => [[c]]
    | g :: gs => if c == ',' then [] :: g :: gs else (c :: g) :: gs

/-- EditNote.handleSubmit tag parsing: split the tags string on commas,
trim each piece, drop empties. -/
def parseTags (s : String) : List String :=
  ((splitOnComma s.data).map (fun g => String.mk (trimChars g))).filter
    (fun t => t.length > 0)

/-- The `updateData` object EditNote.handleSubmit sends: trimmed title and
content, parsed tags, the favorite flag, and the held version. -/
def editUpdateBody (fd : FormData) : UpdateBody :=
  { title := some (jsTrim fd.title), content := some (jsTrim fd.content),
    tags := some (parseTags fd.tags), is_favorite := some fd.is_favorite,
    version := some fd.version }

/-- The fixed message EditNote.handleSubmit sets when the response status
is 409 (a version conflict). -/
def staleVersionMessage : String :=
  "This note was modified by another session. Please refresh the page to get the latest version and try again."

/-- What one call of EditNote.handleSubmit leaves behind: the error
message, the at-most-one update request it issued (the code has no loop
and no retry, so a single `Option` field records the request), the
resulting held version, and whether it navigated to the dashboard. -/
structure SubmitOutcome where
  error : Option String
  sentBody : Option UpdateBody
  version : Nat
  navigated : Bool
deriving DecidableEq, Repr

/-- EditNote.handleSubmit, with the remote `PUT` as an explicit
state-passing parameter (`server body store` returns the response and the
store afterwards). Validation failures return before any request; on
success the held version becomes the response note's version and the page
navigates to the dashboard; a 409 sets the stale-version message and keeps
the held version; any other failure surfaces getErrorMessage. -/
def handleSubmit (fd : FormData)
    (server : UpdateBody → List Note → ApiResult × List Note)
    (store : List Note) : SubmitOutcome × List Note :=
  if jsTrim fd.title = "" then
    ({ error := some "Title is required", sentBody := none,
       version := fd.version, navigated := false }, store)
  else if jsTrim fd.content = "" then
    ({ error := some "Content is required", sentBody := none,
       version := fd.version, navigated := false }, store)
  else
    let body := editUpdateBody fd
    match server body store with
    | (ApiResult.success n, store') =>
        ({ error := none, sentBody := some body,
           version := n.version, navigated := true }, store')
    | (ApiResult.failure status detail msgData errMessage, store') =>
        if status = some 409 then
          ({ error := some staleVersionMessage, sentBody := some body,
             version := fd.version, navigated := false }, store')
        else
          ({ error := some (getErrorMessage detail msgData errMessage),
             sentBody := some body, version := fd.version,
             navigated := false }, store')

/-- EditNote's tags display: `note.tags.join(', ')` from loadNote. -/
def joinTags (tags : List String) : String :=
  String.intercalate ", " tags

/-- EditNote.handleRefresh delegates to loadNote: on a successful GET the
form is repopulated from the fetched note (in particular the held version
becomes the fresh one); on failure the form data is left as it was. -/
def handleRefresh (result : ApiResult) (fd : FormData) : FormData :=
  match result with
  | ApiResult.success n =>
      { title := n.title, content := n.content, tags := joinTags n.tags,
        is_favorite := n.is_favorite, version := n.version }
  | ApiResult.failure _ _ _ _ => fd

/-- The request body Dashboard.handleToggleFavorite sends: only the
negated favorite flag and the note's current version. -/
def toggleFavoriteBody (note : Note) : UpdateBody :=
  { title := none, content := none, tags := none,
    is_favorite := some (!note.is_favorite), version := some note.version }

/-- The substring test of the EditNote error banner (line 385 of
Dashboard.jsx): the Refresh Note affordance keys on the error text
containing a conflict phrase. -/
def showsRefreshButton (error : String) : Bool :=
  strContains error "version conflict" || strContains error "modified by another"

/-- Modelled from the spec: the HTTP surface of the store's update
endpoint (spec §6): missing `version` is a validation failure; success
returns the full note; ConflictError maps to status 409 and NotFoundError
to status 404. -/
def storeServer (noteId owner now : Nat) (body : UpdateBody)
    (store : List Note) : ApiResult × List Note :=
  match body.version with
  | none => (ApiResult.failure (some 422) (some "version field required") none none, store)
  | some v =>
    match update store noteId owner v (toFieldChanges body) now with
    | (Except.ok n, store') => (ApiResult.success n, store')
    | (Except.error StoreError.ConflictError, store') =>
        (ApiResult.failure (some 409) (some "Note version conflict") none none, store')
    | (Except.error StoreError.NotFoundError, store') =>
        (ApiResult.failure (some 404) (some "Note not found") none none, store')

/-! Token handling, translated from api.js and AuthContext.jsx. -/

/-- The browser-global state api.js touches: the `token` entry of
localStorage and the current location. -/
structure ClientState where
  token : Option String
  location : String
deriving DecidableEq, Repr

/-- The api.js request interceptor: when a token is stored, the request
carries `Authorization: Bearer <token>`; otherwise no such header. -/
def authHeader (s : ClientState) : Option String :=
  s.token.map (fun t => "Bearer " ++ t)

/-- The api.js response interceptor's error handler: on status 401 it
removes the stored token and redirects to /login; in every case it
re-raises the error (the returned flag records that it propagates). -/
def responseErrorInterceptor (s : ClientState) (status : Nat) :
    ClientState × Bool :=
  if status == 401 then ({ token := none, location := "/login" }, true)
  else (s, true)

/-- The client-side events that touch the stored token: an API error
response (handled by the interceptor), a successful login or registration
storing a fresh token (AuthContext.login / AuthContext.register), and
logout removing it (AuthContext.logout). -/
inductive TokenEvent where
  | apiError (status : Nat)
  | loginStore (t : String)
  | logout
deriving DecidableEq, Repr

/-- One client-state transition per token-touching event. -/
def clientStep (s : ClientState) : TokenEvent → ClientState
  | TokenEvent.apiError status => (responseErrorInterceptor s status).1
  | TokenEvent.loginStore t => { s with token := some t }
  | TokenEvent.logout => { s with token := none }

/-! Concrete fixtures used by the witness theorems. -/

/-- A concrete persisted note used by witnesses. -/
def witNote : Note :=
  { id := 1, title := "A", content := "B", tags := ["work"], is_favorite := false,
    owner := 10, created_at := 0, updated_at := 0, version := 1 }

/-- A concrete field-change set used by witnesses. -/
def witFC : FieldChanges :=
  { title := some "C", content := none, tags := none, is_favorite := none }

/-- A concrete edit form used by witnesses. -/
def witFD : FormData :=
  { title := " A ", content := "B", tags := "work, fun", is_favorite := false,
    version := 1 }

/-- A remote stub that always fails with no response, used by witnesses. -/
def witServerDown : UpdateBody → List Note → ApiResult × List Note :=
  fun _ store => (ApiResult.failure none none none (some "Network Error"), store)

/-! Helper lemmas about note lookup under the store's transformations. -/

/-- A found note carries the identifier it was looked up by. -/
theorem findNote_id (store : List Note) (noteId : Nat) (n : Note)
    (h : findNote store noteId = some n) : n.id = noteId := by
  have := List.find?_some h
  simpa using this

/-- Replacing the documents that carry `noteId` rewrites exactly the found
note. -/
theorem findNote_map_replace (store : List Note) (noteId : Nat) (n' : Note)
    (h : n'.id = noteId) :
    findNote (store.map fun m => if m.id == noteId then n' else m) noteId
      = (findNote store noteId).map fun _ => n' := by
  induction store with
  | nil => rfl
  | cons m rest ih =>
    by_cases hm : m.id = noteId
    · simp [findNote, hm, h]
    · simpa [findNote, hm] using ih

/-- A find over a mapped list agrees with the plain find when the map
preserves the predicate and fixes every matching element. -/
theorem find?_map_congr {α : Type} (f : α → α) (p : α → Bool) (l : List α)
    (hp : ∀ a, p (f a) = p a) (hf : ∀ a, p a = true → f a = a) :
    (l.map f).find? p = l.find? p := by
  induction l with
  | nil => rfl
  | cons a rest ih =>
    by_cases ha : p a = true
    · rw [List.map_cons, List.find?_cons_of_pos _ (by rw [hp]; exact ha),
        List.find?_cons_of_pos _ ha, hf a ha]
    · rw [List.map_cons, List.find?_cons_of_neg _ (by rw [hp]; exact ha),
        List.find?_cons_of_neg _ ha]
      exact ih

/-- A find over a filtered list agrees with the plain find when the filter
keeps every element the find is looking for. -/
theorem find?_filter_congr {α : Type} (p q : α → Bool) (l : List α)
    (h : ∀ a, p a = true → q a = true) :
    (l.filter q).find? p = l.find? p := by
  induction l with
  | nil => rfl
  | cons a rest ih =>
    by_cases hq : q a = true
    · rw [List.filter_cons_of_pos hq]
      by_cases hp : p a = true
      · rw [List.find?_cons_of_pos _ hp, List.find?_cons_of_pos _ hp]
      · rw [List.find?_cons_of_neg _ hp, List.find?_cons_of_neg _ hp]
        exact ih
    · have hp : ¬ p a = true := fun hpa => hq (h a hpa)
      rw [List.filter_cons_of_neg hq, List.find?_cons_of_neg _ hp]
      exact ih

/-- Replacing the documents that carry `noteId` leaves lookups of any
other identifier untouched. -/
theorem findNote_map_replace_ne (store : List Note) (noteId otherId : Nat)
    (n' : Note) (h : n'.id = noteId) (hne : otherId ≠ noteId) :
    findNote (store.map fun m => if m.id == noteId then n' else m) otherId
      = findNote store otherId := by
  refine find?_map_congr _ _ store (fun a => ?_) (fun a ha => ?_)
  · by_cases hm : a.id = noteId
    · simp [hm, h, Ne.symm hne]
    · simp [hm]
  · have hao : a.id = otherId := by simpa using ha
    have : a.id ≠ noteId := by rw [hao]; exact hne
    simp [this]

/-- After filtering out an identifier, that identifier resolves to
nothing. -/
theorem findNote_filter_same (store : List Note) (noteId : Nat) :
    findNote (store.filter fun m => m.id != noteId) noteId = none := by
  rw [findNote, List.find?_eq_none]
  intro x hx
  have hx2 := (List.mem_filter.mp hx).2
  simp only [bne_iff_ne, ne_eq] at hx2
  simp [hx2]

/-- Filtering out one identifier leaves lookups of any other identifier
untouched. -/
theorem findNote_filter_ne (store : List Note) (noteId otherId : Nat)
    (hne : otherId ≠ noteId) :
    findNote (store.filter fun m => m.id != noteId) otherId
      = findNote store otherId := by
  refine find?_filter_congr _ _ store (fun a ha => ?_)
  have hao : a.id = otherId := by simpa using ha
  have : a.id ≠ noteId := by rw [hao]; exact hne
  simp [this]

/-- Appending documents cannot shadow an identifier that already
resolves. -/
theorem findNote_append_of_some (store l : List Note) (noteId : Nat) (m : Note)
    (h : findNote store noteId = some m) :
    findNote (store ++ l) noteId = some m := by
  rw [findNote, List.find?_append]
  rw [findNote] at h
  rw [h]
  rfl

/-- Looking up an identifier absent from the prefix falls through to the
appended documents. -/
theorem findNote_append_of_none (store l : List Note) (noteId : Nat)
    (h : findNote store noteId = none) :
    findNote (store ++ l) noteId = findNote l noteId := by
  rw [findNote, List.find?_append]
  rw [findNote] at h
  rw [h]
  rfl

/-- Anatomy of a successful update: the note was found, owned and at the
expected version; the result is the changed note stamped
`expectedVersion + 1`, and the store replaces exactly the documents that
carry the identifier. -/
theorem update_ok_spec (store : List Note) (noteId owner ev : Nat)
    (fc : FieldChanges) (now : Nat) (n' : Note)
    (h : (update store noteId owner ev fc now).1 = Except.ok n') :
    ∃ n, findNote store noteId = some n ∧ n.owner = owner ∧ n.version = ev ∧
      n' = applyChanges n fc (ev + 1) now ∧
      (update store noteId owner ev fc now).2 =
        store.map fun m => if m.id == noteId then n' else m := by
  cases hf : findNote store noteId with
  | none => simp [update, hf] at h
  | some n =>
    by_cases ho : n.owner = owner
    · by_cases hv : n.version = ev
      · simp only [update, hf, ho, hv, ne_eq, not_true_eq_false, if_false,
          Except.ok.injEq] at h
        refine ⟨n, rfl, ho, hv, h.symm, ?_⟩
        simp only [update, hf, ho, hv, ne_eq, not_true_eq_false, if_false, h]
      · simp [update, hf, ho, hv] at h
    · simp [update, hf, ho] at h

/-- Anatomy of a failed update: the store is returned unchanged. -/
theorem update_err_unchanged (store : List Note) (noteId owner ev : Nat)
    (fc : FieldChanges) (now : Nat) (e : StoreError)
    (h : (update store noteId owner ev fc now).1 = Except.error e) :
    (update store noteId owner ev fc now).2 = store := by
  cases hf : findNote store noteId with
  | none => simp [update, hf]
  | some n =>
    by_cases ho : n.owner = owner
    · by_cases hv : n.version = ev
      · simp [update, hf, ho, hv] at h
      · simp [update, hf, ho, hv]
    · simp [update, hf, ho]

/-- C2: an update by the owner whose expectedVersion differs from the
note's current stored version returns ConflictError, and the persisted
store -- hence the stored note with every one of its fields, version and
last-modified timestamp included -- is exactly what it was before the
call: no partial field application occurs. -/
theorem update_version_mismatch_conflict_unchanged
    (store : List Note) (noteId owner ev : Nat) (fc : FieldChanges) (now : Nat)
    (n : Note) (hf : findNote store noteId = some n) (ho : n.owner = owner)
    (hv : n.version ≠ ev) :
    update store noteId owner ev fc now
      = (Except.error StoreError.ConflictError, store) := by
  simp [update, hf, ho, hv]

/-- Witness for C2: a stored note at version 1, updated with
expectedVersion 2, conflicts and is left untouched. -/
theorem update_version_mismatch_conflict_unchanged_witness :
    update [witNote] 1 10 2 witFC 5
      = (Except.error StoreError.ConflictError, [witNote]) :=
  update_version_mismatch_conflict_unchanged [witNote] 1 10 2 witFC 5 witNote
    rfl rfl (by decide)

/-- C3: for a caller who is not a note's owner, get, update and delete
return outcomes identical to the ones on an identifier that resolves to
no note at all (NotFoundError, store untouched); the two cases cannot be
told apart by the caller. -/
theorem nonowner_indistinguishable_from_missing
    (store : List Note) (noteId missingId caller : Nat) (n : Note)
    (ev : Nat) (fc : FieldChanges) (now : Nat)
    (hf : findNote store noteId = some n) (hown : n.owner ≠ caller)
    (hm : findNote store missingId = none) :
    get store noteId caller = get store missingId caller ∧
    update store noteId caller ev fc now = update store missingId caller ev fc now ∧
    delete store noteId caller = delete store missingId caller ∧
    get store noteId caller = Except.error StoreError.NotFoundError := by
  refine ⟨?_, ?_, ?_, ?_⟩
  · simp [get, hf, hm, hown]
  · simp [update, hf, hm, hown]
  · simp [delete, hf, hm, hown]
  · simp [get, hf, hown]

/-- Witness for C3: caller 11 probing note 1 (owned by 10) observes the
very outcomes of probing the absent identifier 99. -/
theorem nonowner_indistinguishable_from_missing_witness :
    get [witNote] 1 11 = get [witNote] 99 11 ∧
    update [witNote] 1 11 1 witFC 5 = update [witNote] 99 11 1 witFC 5 ∧
    delete [witNote] 1 11 = delete [witNote] 99 11 ∧
    get [witNote] 1 11 = Except.error StoreError.NotFoundError :=
  nonowner_indistinguishable_from_missing [witNote] 1 99 11 witNote 1 witFC 5
    rfl (by decide) rfl

/-- C8: a note is returned by list with a search text exactly when it
belongs to the store, is owned by the calling identity, and matches the
text case-insensitively in title, content or some tag; without search
text, exactly the owner's notes are returned. Notes of other owners are
excluded either way. -/
theorem list_returns_exactly_matching_owned
    (store : List Note) (owner : Nat) (q : String) (n : Note) :
    (n ∈ listNotes store owner (some q) ↔
      n ∈ store ∧ n.owner = owner ∧ noteMatches q n = true) ∧
    (n ∈ listNotes store owner none ↔ n ∈ store ∧ n.owner = owner) := by
  constructor
  · simp only [listNotes, List.mem_filter, beq_iff_eq]
    tauto
  · simp [listNotes, List.mem_filter]

/-- C9: after a successful delete by the owner, the identifier resolves to
no note: get returns NotFoundError for every caller. -/
theorem delete_then_get_not_found (store : List Note) (noteId caller : Nat)
    (h : (delete store noteId caller).1 = Except.ok ()) (caller2 : Nat) :
    get (delete store noteId caller).2 noteId caller2
      = Except.error StoreError.NotFoundError := by
  cases hf : findNote store noteId with
  | none => simp [delete, hf] at h
  | some n =>
    by_cases ho : n.owner = caller
    · simp only [delete, hf, ho, ne_eq, not_true_eq_false, if_false]
      simp only [get, findNote_filter_same]
    · simp [delete, hf, ho] at h

/-- Witness for C9: the owner deletes note 1; get on the resulting store
returns NotFoundError, also for the owner personally. -/
theorem delete_then_get_not_found_witness :
    get (delete [witNote] 1 10).2 1 10 = Except.error StoreError.NotFoundError :=
  delete_then_get_not_found [witNote] 1 10 rfl 10

/-- A delete leaves the store unchanged or removes exactly the documents
carrying the deleted identifier. -/
theorem delete_snd (store : List Note) (noteId caller : Nat) :
    (delete store noteId caller).2 = store ∨
    (delete store noteId caller).2 = store.filter fun m => m.id != noteId := by
  cases hf : findNote store noteId with
  | none => left; simp [delete, hf]
  | some n =>
    by_cases ho : n.owner = caller
    · right; simp [delete, hf, ho]
    · left; simp [delete, hf, ho]

/-- C1: the version counter is 1 immediately after creation; a successful
update sets it to exactly the pre-update version plus one; and no store
operation ever decreases a note's version or makes it skip a value --
when an identifier resolves both before and after an operation the
version is unchanged or incremented by exactly one, and an identifier
that freshly starts resolving carries version 1. -/
theorem version_counter_invariant (store : List Note) (op : StoreOp)
    (noteId : Nat) :
    (∀ n n', findNote store noteId = some n →
      findNote (applyOp store op) noteId = some n' →
      n'.version = n.version ∨ n'.version = n.version + 1) ∧
    (∀ n', findNote store noteId = none →
      findNote (applyOp store op) noteId = some n' → n'.version = 1) ∧
    (∀ owner ev fc now n n', findNote store noteId = some n →
      (update store noteId owner ev fc now).1 = Except.ok n' →
      n'.version = n.version + 1) ∧
    (∀ newId owner title content tags fav now,
      (create store newId owner title content tags fav now).1.version = 1) := by
  refine ⟨?_, ?_, ?_, fun _ _ _ _ _ _ _ => rfl⟩
  · intro n n' hf hf'
    cases op with
    | createOp newId owner title content tags fav now =>
      have h2 : applyOp store (StoreOp.createOp newId owner title content tags fav now)
          = store ++ [(create store newId owner title content tags fav now).1] := rfl
      rw [h2, findNote_append_of_some store _ noteId n hf] at hf'
      left
      cases hf'
      rfl
    | updateOp t owner ev fc now =>
      simp only [applyOp] at hf'
      cases hr : (update store t owner ev fc now).1 with
      | error e =>
        rw [update_err_unchanged store t owner ev fc now e hr, hf] at hf'
        left
        cases hf'
        rfl
      | ok m =>
        obtain ⟨k, hk, hko, hkv, hmk, hsnd⟩ :=
          update_ok_spec store t owner ev fc now m hr
        have hkid : k.id = t := findNote_id store t k hk
        by_cases ht : t = noteId
        · subst ht
          have hnk : n = k := by
            rw [hf] at hk
            exact Option.some.inj hk
          have hmid : m.id = t := by rw [hmk]; exact hkid
          rw [hsnd, findNote_map_replace store t m hmid, hf] at hf'
          right
          have hn' : n' = m := by simpa using hf'.symm
          rw [hn', hmk, hnk]
          simp [applyChanges, hkv]
        · rw [hsnd, findNote_map_replace_ne store t noteId m
            (by rw [hmk]; exact hkid) (Ne.symm ht), hf] at hf'
          left
          cases hf'
          rfl
    | deleteOp t caller =>
      simp only [applyOp] at hf'
      rcases delete_snd store t caller with hd | hd
      · rw [hd, hf] at hf'
        left
        cases hf'
        rfl
      · by_cases ht : t = noteId
        · subst ht
          rw [hd, findNote_filter_same] at hf'
          cases hf'
        · rw [hd, findNote_filter_ne store t noteId (Ne.symm ht), hf] at hf'
          left
          cases hf'
          rfl
  · intro n' hf hf'
    cases op with
    | createOp newId owner title content tags fav now =>
      have h2 : applyOp store (StoreOp.createOp newId owner title content tags fav now)
          = store ++ [(create store newId owner title content tags fav now).1] := rfl
      rw [h2, findNote_append_of_none store _ noteId hf] at hf'
      by_cases hid : newId = noteId
      · simp only [findNote, List.find?_singleton, create, hid,
          beq_self_eq_true, if_true] at hf'
        cases hf'
        rfl
      · simp [findNote, List.find?_singleton, create, hid] at hf'
    | updateOp t owner ev fc now =>
      simp only [applyOp] at hf'
      cases hr : (update store t owner ev fc now).1 with
      | error e =>
        rw [update_err_unchanged store t owner ev fc now e hr, hf] at hf'
        cases hf'
      | ok m =>
        obtain ⟨k, hk, hko, hkv, hmk, hsnd⟩ :=
          update_ok_spec store t owner ev fc now m hr
        have hkid : k.id = t := findNote_id store t k hk
        by_cases ht : t = noteId
        · subst ht
          rw [hf] at hk
          cases hk
        · rw [hsnd, findNote_map_replace_ne store t noteId m
            (by rw [hmk]; exact hkid) (Ne.symm ht), hf] at hf'
          cases hf'
    | deleteOp t caller =>
      simp only [applyOp] at hf'
      rcases delete_snd store t caller with hd | hd
      · rw [hd, hf] at hf'
        cases hf'
      · by_cases ht : t = noteId
        · subst ht
          rw [hd, findNote_filter_same] at hf'
          cases hf'
        · rw [hd, findNote_filter_ne store t noteId (Ne.symm ht), hf] at hf'
          cases hf'
  · intro owner ev fc now n n' hf hok
    obtain ⟨k, hk, hko, hkv, hmk, hsnd⟩ :=
      update_ok_spec store noteId owner ev fc now n' hok
    have hnk : n = k := by
      rw [hf] at hk
      exact Option.some.inj hk
    rw [hmk, hnk]
    simp [applyChanges, hkv]

/-- Witness for C1: on a one-note store at version 1, the successful
update of note 1 yields version 2 = 1 + 1, and a fresh creation yields
version 1. -/
theorem version_counter_invariant_witness :
    (∀ n n', findNote [witNote] 1 = some n →
      findNote (applyOp [witNote] (StoreOp.updateOp 1 10 1 witFC 5)) 1 = some n' →
      n'.version = n.version ∨ n'.version = n.version + 1) ∧
    (∀ n', findNote [witNote] 1 = none →
      findNote (applyOp [witNote] (StoreOp.updateOp 1 10 1 witFC 5)) 1 = some n' →
      n'.version = 1) ∧
    (∀ owner ev fc now n n', findNote [witNote] 1 = some n →
      (update [witNote] 1 owner ev fc now).1 = Except.ok n' →
      n'.version = n.version + 1) ∧
    (∀ newId owner title content tags fav now,
      (create [witNote] newId owner title content tags fav now).1.version = 1) :=
  version_counter_invariant [witNote] (StoreOp.updateOp 1 10 1 witFC 5) 1

/-- C7: a submission whose title or content is empty after trimming (so
also a whitespace-only one) is rejected with the validation message
before any request is issued: no body is sent and the store is unchanged,
whatever the remote would have answered. -/
theorem submit_validation_rejects_before_request
    (fd : FormData) (server : UpdateBody → List Note → ApiResult × List Note)
    (store : List Note)
    (h : jsTrim fd.title = "" ∨ jsTrim fd.content = "") :
    (handleSubmit fd server store).1.sentBody = none ∧
    (handleSubmit fd server store).2 = store ∧
    ((handleSubmit fd server store).1.error = some "Title is required" ∨
     (handleSubmit fd server store).1.error = some "Content is required") := by
  by_cases ht : jsTrim fd.title = ""
  · simp [handleSubmit, ht]
  · have hc : jsTrim fd.content = "" := h.resolve_left ht
    simp [handleSubmit, ht, hc]

/-- Witness for C7: a whitespace-only title is turned away before the
request even against an unreachable remote. -/
theorem submit_validation_rejects_before_request_witness :
    (handleSubmit { witFD with title := "   " } witServerDown []).1.sentBody = none ∧
    (handleSubmit { witFD with title := "   " } witServerDown []).2 = [] ∧
    ((handleSubmit { witFD with title := "   " } witServerDown []).1.error
        = some "Title is required" ∨
     (handleSubmit { witFD with title := "   " } witServerDown []).1.error
        = some "Content is required") :=
  submit_validation_rejects_before_request { witFD with title := "   " }
    witServerDown [] (Or.inl (by decide))

/-- C5: every update request the client session issues carries the
version field, never omitted: the body the edit-form submit sends holds
the session's held version, and the favorite-toggle body holds the
toggled note's current version. -/
theorem update_requests_carry_held_version
    (fd : FormData) (server : UpdateBody → List Note → ApiResult × List Note)
    (store : List Note) (b : UpdateBody) (note : Note)
    (h : (handleSubmit fd server store).1.sentBody = some b) :
    b.version = some fd.version ∧
    (toggleFavoriteBody note).version = some note.version := by
  refine ⟨?_, rfl⟩
  by_cases ht : jsTrim fd.title = ""
  · simp [handleSubmit, ht] at h
  · by_cases hc : jsTrim fd.content = ""
    · simp [handleSubmit, ht, hc] at h
    · rcases hs : server (editUpdateBody fd) store with ⟨res, store'⟩
      cases res with
      | success n =>
        simp [handleSubmit, ht, hc, hs] at h
        rw [← h]
        rfl
      | failure st d m e =>
        by_cases h409 : st = some 409
        · simp [handleSubmit, ht, hc, hs, h409] at h
          rw [← h]
          rfl
        · simp [handleSubmit, ht, hc, hs, h409] at h
          rw [← h]
          rfl

/-- Witness for C5: the concrete form sends its held version 1. -/
theorem update_requests_carry_held_version_witness :
    (editUpdateBody witFD).version = some witFD.version ∧
    (toggleFavoriteBody witNote).version = some witNote.version :=
  update_requests_carry_held_version witFD (storeServer 1 10 5) [witNote]
    (editUpdateBody witFD) witNote rfl

/-- C4: when the issued update fails with HTTP 409 the session surfaces
the fixed stale-version message -- the outcome the form distinguishes from
a generic failure by the Refresh Note affordance keyed on that text --
keeps the held version, does not navigate, and issues no further request
(the single sent body is the whole traffic of the submit); retrying
happens only through the explicit reload, which adopts the version
fetched fresh. -/
theorem conflict_surfaces_stale_outcome_no_retry
    (fd : FormData) (server : UpdateBody → List Note → ApiResult × List Note)
    (store store' : List Note) (d m e : Option String)
    (hT : jsTrim fd.title ≠ "") (hC : jsTrim fd.content ≠ "")
    (hs : server (editUpdateBody fd) store
      = (ApiResult.failure (some 409) d m e, store')) :
    (handleSubmit fd server store).1.error = some staleVersionMessage ∧
    (handleSubmit fd server store).1.sentBody = some (editUpdateBody fd) ∧
    (handleSubmit fd server store).1.version = fd.version ∧
    (handleSubmit fd server store).1.navigated = false ∧
    showsRefreshButton staleVersionMessage = true ∧
    showsRefreshButton defaultErrorMessage = false ∧
    staleVersionMessage ≠ defaultErrorMessage ∧
    (∀ n fd2, (handleRefresh (ApiResult.success n) fd2).version = n.version) := by
  refine ⟨?_, ?_, ?_, ?_, by decide, by decide, by decide, fun n fd2 => rfl⟩ <;>
    simp [handleSubmit, hT, hC, hs]

/-- Witness for C4: submitting the form with stale held version 7 against
the store holding version 1 yields the stale-version outcome. -/
theorem conflict_surfaces_stale_outcome_no_retry_witness :
    (handleSubmit { witFD with version := 7 } (storeServer 1 10 5) [witNote]).1.error
        = some staleVersionMessage ∧
    (handleSubmit { witFD with version := 7 } (storeServer 1 10 5) [witNote]).1.sentBody
        = some (editUpdateBody { witFD with version := 7 }) ∧
    (handleSubmit { witFD with version := 7 } (storeServer 1 10 5) [witNote]).1.version
        = ({ witFD with version := 7 } : FormData).version ∧
    (handleSubmit { witFD with version := 7 } (storeServer 1 10 5) [witNote]).1.navigated
        = false ∧
    showsRefreshButton staleVersionMessage = true ∧
    showsRefreshButton defaultErrorMessage = false ∧
    staleVersionMessage ≠ defaultErrorMessage ∧
    (∀ n fd2, (handleRefresh (ApiResult.success n) fd2).version = n.version) :=
  conflict_surfaces_stale_outcome_no_retry { witFD with version := 7 }
    (storeServer 1 10 5) [witNote] [witNote]
    (some "Note version conflict") none none (by decide) (by decide) rfl

/-- The remote of the update endpoint, specialised to the modelled store:
the response is determined by the store's update outcome. -/
theorem storeServer_eq (noteId owner now : Nat) (fd : FormData)
    (store : List Note) :
    storeServer noteId owner now (editUpdateBody fd) store =
      match update store noteId owner fd.version
          (toFieldChanges (editUpdateBody fd)) now with
      | (Except.ok n, store') => (ApiResult.success n, store')
      | (Except.error StoreError.ConflictError, store') =>
          (ApiResult.failure (some 409) (some "Note version conflict") none none,
            store')
      | (Except.error StoreError.NotFoundError, store') =>
          (ApiResult.failure (some 404) (some "Note not found") none none,
            store') := rfl

/-- C6: one edit session starting Loaded with held version v submits (the
Submitting phase is the call in flight) and ends in exactly one of three
states against the store: success leaves it Loaded holding v + 1 and
navigating away; a version mismatch leaves it Conflicted, still holding v,
showing the stale message; any other failure leaves it Errored with a
message distinct from the stale one, still holding v. From Conflicted the
only defined move is the reload, which adopts the version fetched fresh
from the store. -/
theorem edit_session_state_machine
    (store : List Note) (noteId owner now : Nat) (fd : FormData)
    (hT : jsTrim fd.title ≠ "") (hC : jsTrim fd.content ≠ "") :
    (∀ n, (update store noteId owner fd.version
        (toFieldChanges (editUpdateBody fd)) now).1 = Except.ok n →
      (handleSubmit fd (storeServer noteId owner now) store).1.error = none ∧
      (handleSubmit fd (storeServer noteId owner now) store).1.version
        = fd.version + 1 ∧
      (handleSubmit fd (storeServer noteId owner now) store).1.navigated = true) ∧
    ((update store noteId owner fd.version
        (toFieldChanges (editUpdateBody fd)) now).1
        = Except.error StoreError.ConflictError →
      (handleSubmit fd (storeServer noteId owner now) store).1.error
        = some staleVersionMessage ∧
      (handleSubmit fd (storeServer noteId owner now) store).1.version
        = fd.version ∧
      (handleSubmit fd (storeServer noteId owner now) store).1.navigated = false) ∧
    ((update store noteId owner fd.version
        (toFieldChanges (editUpdateBody fd)) now).1
        = Except.error StoreError.NotFoundError →
      (handleSubmit fd (storeServer noteId owner now) store).1.error
        = some "Note not found" ∧
      some "Note not found" ≠ some staleVersionMessage ∧
      (handleSubmit fd (storeServer noteId owner now) store).1.version
        = fd.version ∧
      (handleSubmit fd (storeServer noteId owner now) store).1.navigated = false) ∧
    (∀ n fd2, (handleRefresh (ApiResult.success n) fd2).version = n.version) := by
  rcases hu : update store noteId owner fd.version
      (toFieldChanges (editUpdateBody fd)) now with ⟨r, s2⟩
  have hserver := storeServer_eq noteId owner now fd store
  rw [hu] at hserver
  refine ⟨?_, ?_, ?_, fun n fd2 => rfl⟩
  · intro n hok
    simp only [hu] at hok
    cases hok
    have hv : n.version = fd.version + 1 := by
      obtain ⟨k, _, _, _, hmk, _⟩ := update_ok_spec store noteId owner fd.version
        (toFieldChanges (editUpdateBody fd)) now n (by rw [hu])
      rw [hmk]
      rfl
    simp [handleSubmit, hT, hC, hserver, hv]
  · intro hconf
    simp only [hu] at hconf
    cases hconf
    simp [handleSubmit, hT, hC, hserver]
  · intro hnf
    simp only [hu] at hnf
    cases hnf
    refine ⟨?_, by decide, ?_, ?_⟩ <;>
      simp [handleSubmit, hT, hC, hserver, getErrorMessage, orNonempty]

/-- Witness for C6: the concrete form at held version 1 against the
one-note store at version 1; the successful branch applies with the
computed updated note. -/
theorem edit_session_state_machine_witness :
    ((∀ n, (update [witNote] 1 10 witFD.version
        (toFieldChanges (editUpdateBody witFD)) 5).1 = Except.ok n →
      (handleSubmit witFD (storeServer 1 10 5) [witNote]).1.error = none ∧
      (handleSubmit witFD (storeServer 1 10 5) [witNote]).1.version
        = witFD.version + 1 ∧
      (handleSubmit witFD (storeServer 1 10 5) [witNote]).1.navigated = true) ∧
    ((update [witNote] 1 10 witFD.version
        (toFieldChanges (editUpdateBody witFD)) 5).1
        = Except.error StoreError.ConflictError →
      (handleSubmit witFD (storeServer 1 10 5) [witNote]).1.error
        = some staleVersionMessage ∧
      (handleSubmit witFD (storeServer 1 10 5) [witNote]).1.version
        = witFD.version ∧
      (handleSubmit witFD (storeServer 1 10 5) [witNote]).1.navigated = false) ∧
    ((update [witNote] 1 10 witFD.version
        (toFieldChanges (editUpdateBody witFD)) 5).1
        = Except.error StoreError.NotFoundError →
      (handleSubmit witFD (storeServer 1 10 5) [witNote]).1.error
        = some "Note not found" ∧
      some "Note not found" ≠ some staleVersionMessage ∧
      (handleSubmit witFD (storeServer 1 10 5) [witNote]).1.version
        = witFD.version ∧
      (handleSubmit witFD (storeServer 1 10 5) [witNote]).1.navigated = false) ∧
    (∀ n fd2, (handleRefresh (ApiResult.success n) fd2).version = n.version)) :=
  edit_session_state_machine [witNote] 1 10 5 witFD (by decide) (by decide)

/-- Once the stored token is gone it stays gone across any run of
token-touching events that contains no login. -/
theorem token_stays_cleared (evs : List TokenEvent) (s : ClientState)
    (h : s.token = none) (hno : ∀ t, TokenEvent.loginStore t ∉ evs) :
    (evs.foldl clientStep s).token = none := by
  induction evs generalizing s with
  | nil => simpa using h
  | cons e rest ih =>
    have hrest : ∀ t, TokenEvent.loginStore t ∉ rest :=
      fun t ht => hno t (List.mem_cons_of_mem _ ht)
    rw [List.foldl_cons]
    cases e with
    | apiError status =>
      refine ih _ ?_ hrest
      simp only [clientStep, responseErrorInterceptor]
      by_cases h4 : (status == 401) = true
      · simp [h4]
      · simp [h4, h]
    | loginStore t => exact absurd (List.mem_cons_self _ _) (hno t)
    | logout => exact ih _ rfl hrest

/-- C10: a 401 response makes the interceptor remove the stored token and
navigate to /login while still propagating the error; from then on, as
long as no login stores a new token, every issued request carries no
Authorization header, and a fresh login restores it. -/
theorem unauthorized_clears_token_until_login
    (s : ClientState) (evs : List TokenEvent)
    (hno : ∀ t, TokenEvent.loginStore t ∉ evs) :
    (clientStep s (TokenEvent.apiError 401)).token = none ∧
    (clientStep s (TokenEvent.apiError 401)).location = "/login" ∧
    (responseErrorInterceptor s 401).2 = true ∧
    authHeader (evs.foldl clientStep (clientStep s (TokenEvent.apiError 401)))
      = none ∧
    (∀ tok s2, authHeader (clientStep s2 (TokenEvent.loginStore tok))
      = some ("Bearer " ++ tok)) := by
  refine ⟨rfl, rfl, rfl, ?_, fun tok s2 => rfl⟩
  have h1 : (clientStep s (TokenEvent.apiError 401)).token = none := rfl
  simp [authHeader, token_stays_cleared evs _ h1 hno]

/-- Witness for C10: after a 401 with token "abc" stored, a 500, a logout
and a 404 still leave the client sending no Authorization header. -/
theorem unauthorized_clears_token_until_login_witness :
    (clientStep { token := some "abc", location := "/dashboard" }
        (TokenEvent.apiError 401)).token = none ∧
    (clientStep { token := some "abc", location := "/dashboard" }
        (TokenEvent.apiError 401)).location = "/login" ∧
    (responseErrorInterceptor { token := some "abc", location := "/dashboard" }
        401).2 = true ∧
    authHeader ([TokenEvent.apiError 500, TokenEvent.logout,
        TokenEvent.apiError 404].foldl clientStep
      (clientStep { token := some "abc", location := "/dashboard" }
        (TokenEvent.apiError 401))) = none ∧
    (∀ tok s2, authHeader (clientStep s2 (TokenEvent.loginStore tok))
      = some ("Bearer " ++ tok)) :=
  unauthorized_clears_token_until_login
    { token := some "abc", location := "/dashboard" }
    [TokenEvent.apiError 500, TokenEvent.logout, TokenEvent.apiError 404]
    (by intro t ht; simp at ht)

end NotesApp
